import Mathlib

/-!
Shallow embedding of the BeanLink scoped publish/subscribe core
(`src/lib/BeanLink.ts`): the event catalog (`createEvent`), the per-scope
registry (`BeanLink.on` / `BeanLink.publish`), the scope resolver
(`BeanLink.getInstance`) and the feature registry
(`BeanLink.registerFeature` / `BeanLink.initialiseFeatures`).

Modelling conventions:
* A JavaScript `Map<string, A>` is an association list `List (String × A)`
  with `mapGet` / `mapSet` (only `get` / `set` are used by the source).
* JavaScript truthiness is made explicit where the source branches on it:
  a string is truthy iff it is non-empty (`jsTruthyString`), `undefined`
  is falsy (`Option`), an object (a `BeanLink` instance) is always truthy.
* Handler functions, predicate functions and feature callbacks are named
  by numeric identifiers; their behaviour (weak-reference liveness,
  predicate results, whether a handler throws, what a feature callback
  does to the registry it receives) is supplied by a semantic environment.
* Object identity — JS reference identity of subscription records and of
  `BeanLink` instances — is modelled by a fresh numeric id stamped on each
  record at creation (`sid` for subscriptions, `rid` for registries).
* A JS exception is modelled by `Except` for functions that only throw,
  and by an explicit `thrown` flag for `publish`, where a handler's
  exception aborts the iteration and propagates to the caller.
-/

namespace BeanLinkSpec

/-- Model of `Map.get` on the association-list view of a JS `Map`. -/
def mapGet {α : Type} : List (String × α) → String → Option α
  | [], _ => none
  | (k, v) :: rest, key => if k = key then some v else mapGet rest key

/-- Model of `Map.set` on the association-list view of a JS `Map`. -/
def mapSet {α : Type} : List (String × α) → String → α → List (String × α)
  | [], key, v => [(key, v)]
  | (k, v0) :: rest, key, v =>
    if k = key then (key, v) :: rest else (k, v0) :: mapSet rest key v

/-- JS truthiness of a string: truthy iff non-empty. -/
def jsTruthyString (s : String) : Bool := s != ""

/-- JS truthiness of a possibly-`undefined` string. -/
def jsTruthyOptStr : Option String → Bool
  | none => false
  | some s => jsTruthyString s

/-- Type `BeanLinkEvent<T>`: the envelope of an event name and a value. -/
structure Event (V : Type) where
  name : String
  value : V
deriving DecidableEq, Repr

/-- Type `BeanLinkEventCreator<T>`: an event name plus its envelope constructor. -/
structure BeanLinkEventCreator (V : Type) where
  name : String
  event : V → Event V

/-- The module-level `eventNames : Map<string, string>` catalog. -/
abbrev Catalog := List (String × String)

/-- The source's duplicate test `if (eventNames.get(name))`: the stored
value must be present and truthy (`undefined` and `""` are falsy). -/
def catalogHit (cat : Catalog) (name : String) : Bool :=
  match mapGet cat name with
  | some stored => jsTruthyString stored
  | none => false

/-- Model of `createEvent<T>(name)`. Throws (`Except.error`, the message of the
source's `new Error`) when `eventNames.get(name)` is truthy; otherwise
records `name ↦ name` in the catalog and returns the creator whose
`event` function is the pure constructor `value => ({name, value})`.
The post-call catalog is returned in both cases: on a throw the `set`
is never reached, so the catalog is unchanged. -/
def createEvent (V : Type) (cat : Catalog) (name : String) :
    Except String (BeanLinkEventCreator V) × Catalog :=
  if catalogHit cat name then
    (Except.error ("Event with name \"" ++ name ++ "\" already exists."), cat)
  else
    (Except.ok ⟨name, fun value => ⟨name, value⟩⟩, mapSet cat name name)

/-- A stored handler reference: either the handler itself (strong) or a
`WeakRef` wrapping it (weak). `hid` names the underlying handler. -/
inductive HandlerRef where
  | strong (hid : Nat)
  | weak (hid : Nat)
deriving DecidableEq, Repr

/-- The handler a reference points at (ignoring liveness). -/
def HandlerRef.hid : HandlerRef → Nat
  | .strong h => h
  | .weak h => h

/-- One entry of a `_handlers` list: `{handlerRef, predicate}`.
`sid` models the JS reference identity of this record. -/
structure Subscription where
  sid : Nat
  handlerRef : HandlerRef
  predicate : Option Nat
deriving DecidableEq, Repr

abbrev SubList := List Subscription

/-- A `BeanLink` instance: `_name`, the `_handlers` map, plus the
identity (`rid`) and fresh-subscription supply (`nextSid`) that model JS
object identity. -/
structure Registry where
  rid : Nat
  name : String
  handlers : List (String × SubList)
  nextSid : Nat
deriving DecidableEq, Repr

/-- Semantic environment for dispatch: which weakly-held handlers are
still alive (`WeakRef.deref` succeeds), what each predicate returns on an
envelope, and which handlers throw when invoked. -/
structure Env (V : Type) where
  live : Nat → Bool
  predSem : Nat → Event V → Bool
  throws : Nat → Bool

/-- Resolving a stored reference, as in
`handler.handlerRef instanceof WeakRef ? handler.handlerRef.deref() : handler.handlerRef`:
a strong reference always yields the handler, a weak one only while the
referent is alive. -/
def derefHandler {V : Type} (env : Env V) : HandlerRef → Option Nat
  | .strong h => some h
  | .weak h => if env.live h then some h else none

/-- The guard `!handler.predicate || (handler.predicate && handler.predicate(event))`:
absent predicate passes, otherwise the predicate is evaluated on the envelope. -/
def predPasses {V : Type} (env : Env V) (e : Event V) (s : Subscription) : Bool :=
  match s.predicate with
  | none => true
  | some p => env.predSem p e

/-- The `handlers.forEach` pass of `publish`: returns the invocation
trace (handler id with the envelope it received, in order), the
`recycledRefs` list of stale subscriptions in list order, and whether a
handler threw (which aborts the iteration at that point, the exception
propagating). -/
def dispatchPass {V : Type} (env : Env V) (e : Event V) :
    SubList → List (Nat × Event V) × SubList × Bool
  | [] => ([], [], false)
  | s :: rest =>
    match derefHandler env s.handlerRef with
    | none =>
      let out := dispatchPass env e rest
      (out.1, s :: out.2.1, out.2.2)
    | some h =>
      if predPasses env e s then
        if env.throws h then ([(h, e)], [], true)
        else
          let out := dispatchPass env e rest
          ((h, e) :: out.1, out.2.1, out.2.2)
      else
        dispatchPass env e rest

/-- JS `Array.prototype.findIndex`: index of the first match, `-1` if none. -/
def jsFindIndex (p : Subscription → Bool) : SubList → Int
  | [] => -1
  | s :: rest =>
    if p s then 0
    else
      let i := jsFindIndex p rest
      if i < 0 then -1 else i + 1

/-- JS `Array.prototype.splice(i, 1)`: removes one element at `i`, a
negative `i` counting from the end and clamping at `0`. -/
def jsSpliceOne (l : SubList) (i : Int) : SubList :=
  let start : Nat :=
    if i < 0 then (max ((l.length : Int) + i) 0).toNat else min i.toNat l.length
  l.take start ++ l.drop (start + 1)

/-- The compaction loop of `publish`: for each recycled record, find it
in the list by reference identity (`e === ref`, modelled by `sid`) and
splice it out. -/
def compact (recycled : SubList) (handlers : SubList) : SubList :=
  recycled.foldl
    (fun hs r => jsSpliceOne hs (jsFindIndex (fun s => s.sid == r.sid) hs)) handlers

/-- Model of `BeanLink.publish(event)`: look up the list for `event.name` (absent
⇒ no-op); run the dispatch pass; if a handler threw, the exception
propagates (`thrown = true`) and the local `recycledRefs` are discarded;
otherwise, when `recycledRefs` is non-empty, compact the list. Returns
the invocation trace, the post-call registry, and the thrown flag. -/
def Registry.publish {V : Type} (env : Env V) (r : Registry) (e : Event V) :
    List (Nat × Event V) × Registry × Bool :=
  match mapGet r.handlers e.name with
  | none => ([], r, false)
  | some hs =>
    let out := dispatchPass env e hs
    if out.2.2 then
      (out.1, r, true)
    else
      let hs2 := if out.2.1.length ≠ 0 then compact out.2.1 hs else hs
      (out.1, ⟨r.rid, r.name, mapSet r.handlers e.name hs2, r.nextSid⟩, false)

/-- Type `BeanLinkEventHandlerOptions`: `weak?` and `predicate?`, each
possibly absent (`undefined`). -/
structure HandlerOptions where
  weak : Option Bool
  predicate : Option Nat
deriving DecidableEq, Repr

/-- The overload resolution `typeof event === 'string' ? event : event.name`. -/
def resolveEventName {V : Type} : String ⊕ BeanLinkEventCreator V → String
  | Sum.inl s => s
  | Sum.inr c => c.name

/-- Model of `BeanLink.on(event, handler, options?)`: resolve the event name;
`const weak = options?.weak` (falsy when `options` or `weak` is absent);
lazily create the list; append `{handlerRef, predicate}` where
`handlerRef = weak ? new WeakRef(handler) : handler`. The fresh `sid`
models the new record's identity. -/
def Registry.on {V : Type} (r : Registry) (event : String ⊕ BeanLinkEventCreator V)
    (hid : Nat) (options : Option HandlerOptions) : Registry :=
  let eventName := resolveEventName event
  let weak : Option Bool := options.bind (fun o => o.weak)
  let predicate : Option Nat := options.bind (fun o => o.predicate)
  let handlers := (mapGet r.handlers eventName).getD []
  let handlerRef := if weak.getD false then HandlerRef.weak hid else HandlerRef.strong hid
  ⟨r.rid, r.name,
    mapSet r.handlers eventName (handlers ++ [⟨r.nextSid, handlerRef, predicate⟩]),
    r.nextSid + 1⟩

/-- The Svelte component context as seen through `getContext`/`setContext`:
a string-keyed store whose values are possibly-`undefined` `BeanLink`
instances (only the keys `beanLink` and `parentBeanLink` are used). -/
abbrev Ctx := List (String × Option Registry)

/-- Model of `getContext(key)`: `undefined` when the key is absent or was set to
`undefined`. -/
def ctxGet (c : Ctx) (k : String) : Option Registry := (mapGet c k).getD none

/-- Model of `setContext(key, value)`. -/
def ctxSet (c : Ctx) (k : String) (v : Option Registry) : Ctx := mapSet c k v

/-- Semantics of feature init callbacks (`ContextInitCallback`), named by
id: a callback mutates the `BeanLink` instance it is handed, which in
this model means it may rewrite the handlers map and the subscription-id
supply, but cannot change the instance's identity or name. -/
structure CbEnv where
  cbSem : Nat → List (String × SubList) × Nat → List (String × SubList) × Nat

/-- Running one init callback on a registry. -/
def applyCb (env : CbEnv) (cb : Nat) (r : Registry) : Registry :=
  let out := env.cbSem cb (r.handlers, r.nextSid)
  ⟨r.rid, r.name, out.1, out.2⟩

/-- The static `featureMap : Map<string, ContextInitCallback[]>`. -/
abbrev FeatureMap := List (String × List Nat)

/-- Model of `BeanLink.registerFeature(context, featureName, initCallback)`:
lazily create the list for `context` and push the callback (the
`featureName` argument is used only for logging). -/
def registerFeature (fm : FeatureMap) (context : String) (cb : Nat) : FeatureMap :=
  let features := (mapGet fm context).getD []
  mapSet fm context (features ++ [cb])

/-- Model of `BeanLink.initialiseFeatures(context, beanLinkInstance)`: run every
callback registered under `context`, in registration order, on the
instance. Also returns the invocation trace: each callback id paired
with the `rid` of the registry it was handed. -/
def initialiseFeatures (env : CbEnv) (fm : FeatureMap) (context : String)
    (bl : Registry) : Registry × List (Nat × Nat) :=
  match mapGet fm context with
  | none => (bl, [])
  | some cbs =>
    cbs.foldl (fun acc cb => (applyCb env cb acc.1, acc.2 ++ [(cb, acc.1.rid)])) (bl, [])

/-- The mutable world `getInstance` runs in: the Svelte context, the
static feature map, and the fresh supply of instance identities that
models `new BeanLink(...)`. -/
structure World where
  context : Ctx
  featureMap : FeatureMap
  nextRid : Nat
deriving Repr

/-- Model of `BeanLink.getInstance(contextId?)`. Reads `beanLink` from the
context; enters the creation branch when it is absent or a truthy
`contextId` differs from its name. In the branch: with a truthy
`contextId` it constructs a fresh instance, runs the feature callbacks
on it, re-reads the context for the parent, and writes `beanLink` and
`parentBeanLink`; otherwise it throws. Returns
`(beanLink, parentBeanLink, new world, feature-callback trace)`; the
`parentBeanLink` slot is `Option` because the source stores and returns
whatever `getContext` yielded, which may be `undefined`. On a throw the
context is untouched (the `setContext` calls come after the `throw`). -/
def getInstance (env : CbEnv) (w : World) (contextId : Option String) :
    Except String (Option Registry × Option Registry × World × List (Nat × Nat)) :=
  let beanLink := ctxGet w.context "beanLink"
  let parentBeanLink := beanLink
  let enter := !beanLink.isSome ||
      (jsTruthyOptStr contextId &&
        (contextId.getD "" != (beanLink.map Registry.name).getD ""))
  if enter then
    if jsTruthyOptStr contextId then
      let cid := contextId.getD ""
      let created : Registry := ⟨w.nextRid, cid, [], 0⟩
      let out := initialiseFeatures env w.featureMap cid created
      let parent := ctxGet w.context "beanLink"
      let ctx2 := ctxSet (ctxSet w.context "beanLink" (some out.1)) "parentBeanLink" parent
      Except.ok (some out.1, parent, ⟨ctx2, w.featureMap, w.nextRid + 1⟩, out.2)
    else
      Except.error "no BeanLink instance in Svelte context found"
  else
    Except.ok (beanLink, parentBeanLink, w, [])

/-! ### Derived notions used to state the properties -/

/-- A subscription whose handler reference still resolves. -/
def liveSub {V : Type} (env : Env V) (s : Subscription) : Bool :=
  (derefHandler env s.handlerRef).isSome

/-- The subscriptions of a list that `publish` invokes for `e`:
live ones whose predicate is absent or passes, in list order. -/
def invokedSubs {V : Type} (env : Env V) (e : Event V) (hs : SubList) : SubList :=
  hs.filter (fun s => liveSub env s && predPasses env e s)

/-- The stale subscriptions of a list: weakly held with the referent
reclaimed. -/
def staleSubs {V : Type} (env : Env V) (hs : SubList) : SubList :=
  hs.filter (fun s => !liveSub env s)

/-- Removal of the first record with a given identity: what one
`findIndex` + `splice(i, 1)` step of the compaction loop does when the
record is present. -/
def eraseFirstSid (x : Nat) : SubList → SubList
  | [] => []
  | s :: rest => if s.sid = x then rest else s :: eraseFirstSid x rest

/-! ### Concrete fixtures used by the witnesses -/

/-- Dispatch environment: handler 2's weak referent has been reclaimed,
predicate 0 always passes, predicate 1 checks the payload is "x",
no handler throws. -/
def wEnv : Env String :=
  ⟨fun h => h != 2, fun p ev => p == 0 || ev.value == "x", fun _ => false⟩

/-- Four subscriptions on "testEvent": a strong one, a stale weak one,
a live weak one with a predicate, a strong one with a predicate. -/
def wTestSubs : SubList :=
  [⟨0, HandlerRef.strong 1, none⟩, ⟨1, HandlerRef.weak 2, none⟩,
   ⟨2, HandlerRef.weak 3, some 0⟩, ⟨3, HandlerRef.strong 4, some 1⟩]

/-- A registry with the four "testEvent" subscriptions and one on
"otherEvent". -/
def wReg : Registry :=
  ⟨0, "testContext",
    [("testEvent", wTestSubs), ("otherEvent", [⟨4, HandlerRef.strong 5, none⟩])],
    5⟩

def wEvent : Event String := ⟨"testEvent", "x"⟩

/-- Dispatch environment in which handler 4 throws when invoked. -/
def w8Env : Env String := ⟨fun _ => true, fun _ _ => true, fun h => h == 4⟩

/-- A registry whose "testEvent" list is handler 1, then the throwing
handler 4, then handler 5. -/
def w8Reg : Registry :=
  ⟨0, "testContext",
    [("testEvent",
      [⟨0, HandlerRef.strong 1, none⟩, ⟨1, HandlerRef.strong 4, none⟩,
       ⟨2, HandlerRef.strong 5, none⟩])],
    3⟩

/-- The registry active under scope name "A" in the scope fixtures. -/
def blA : Registry := ⟨0, "A", [], 0⟩

/-- A world whose context holds `blA` and whose feature map has two
callbacks (ids 10 and 11) registered for position "B". -/
def wScopeWorld : World := ⟨[("beanLink", some blA)], [("B", [10, 11])], 1⟩

/-- A world with an empty context (no active instance). -/
def wEmptyWorld : World := ⟨[], [("Tile", [10, 11])], 5⟩

/-- Feature-callback semantics: callback `cb` installs one strong
subscription for handler `cb` under "tileEvent". -/
def wCbEnv : CbEnv :=
  ⟨fun cb st => (mapSet st.1 "tileEvent" [⟨st.2, HandlerRef.strong cb, none⟩], st.2 + 1)⟩

/-- A catalog in which "counterparty" is already declared. -/
def wCat : Catalog := [("counterparty", "counterparty")]

/-! ### Association-list lemmas -/

lemma mapGet_mapSet_self {α : Type} (m : List (String × α)) (k : String) (v : α) :
    mapGet (mapSet m k v) k = some v := by
  induction m with
  | nil => simp [mapGet, mapSet]
  | cons p rest ih =>
    by_cases h : p.1 = k
    · simp [mapGet, mapSet, h]
    · simp [mapGet, mapSet, h, ih]

lemma mapGet_mapSet_ne {α : Type} (m : List (String × α)) (k k2 : String) (v : α)
    (h : k ≠ k2) : mapGet (mapSet m k v) k2 = mapGet m k2 := by
  induction m with
  | nil => simp [mapGet, mapSet, h]
  | cons p rest ih =>
    by_cases hp : p.1 = k
    · have hne : p.1 ≠ k2 := hp ▸ h
      simp [mapGet, mapSet, hp, h, hne]
    · by_cases hq : p.1 = k2
      · simp [mapGet, mapSet, hp, hq, Ne.symm h]
      · simp [mapGet, mapSet, hp, hq, ih]

lemma ctxGet_ctxSet_self (c : Ctx) (k : String) (v : Option Registry) :
    ctxGet (ctxSet c k v) k = v := by
  simp [ctxGet, ctxSet, mapGet_mapSet_self]

lemma ctxGet_ctxSet_ne (c : Ctx) (k k2 : String) (v : Option Registry) (h : k ≠ k2) :
    ctxGet (ctxSet c k v) k2 = ctxGet c k2 := by
  simp [ctxGet, ctxSet, mapGet_mapSet_ne _ _ _ _ h]

/-! ### Dispatch-pass characterisation -/

lemma derefHandler_eq_some {V : Type} (env : Env V) (r : HandlerRef) (h : Nat)
    (hd : derefHandler env r = some h) : h = r.hid := by
  cases r with
  | strong h0 => simp [derefHandler] at hd; simp [HandlerRef.hid, hd]
  | weak h0 =>
    simp [derefHandler] at hd
    by_cases hl : env.live h0
    · simp [hl] at hd; simp [HandlerRef.hid, hd]
    · simp [hl] at hd

lemma liveSub_of_deref_some {V : Type} (env : Env V) (s : Subscription) (h : Nat)
    (hd : derefHandler env s.handlerRef = some h) : liveSub env s = true := by
  simp [liveSub, hd]

lemma liveSub_of_deref_none {V : Type} (env : Env V) (s : Subscription)
    (hd : derefHandler env s.handlerRef = none) : liveSub env s = false := by
  simp [liveSub, hd]

/-- When no invoked handler throws, the dispatch pass invokes exactly the
live, predicate-passing subscriptions in order, each with the published
envelope, collects exactly the stale subscriptions in order, and does
not abort. -/
lemma dispatchPass_no_throw {V : Type} (env : Env V) (e : Event V) (hs : SubList)
    (hn : ∀ s ∈ hs, liveSub env s → predPasses env e s →
        env.throws s.handlerRef.hid = false) :
    dispatchPass env e hs
      = ((invokedSubs env e hs).map (fun s => (s.handlerRef.hid, e)),
          staleSubs env hs, false) := by
  induction hs with
  | nil => rfl
  | cons s rest ih =>
    have hrest : ∀ t ∈ rest, liveSub env t → predPasses env e t →
        env.throws t.handlerRef.hid = false := by
      intro t ht; exact hn t (List.mem_cons_of_mem _ ht)
    cases hd : derefHandler env s.handlerRef with
    | none =>
      have hlive := liveSub_of_deref_none env s hd
      simp [dispatchPass, hd, invokedSubs, staleSubs, hlive, ih hrest,
        invokedSubs, staleSubs]
    | some h =>
      have hhid := derefHandler_eq_some env s.handlerRef h hd
      subst hhid
      have hlive := liveSub_of_deref_some env s _ hd
      by_cases hp : predPasses env e s
      · have hnothrow := hn s (List.mem_cons_self s rest) hlive hp
        simp [dispatchPass, hd, hp, hnothrow, invokedSubs, staleSubs, hlive,
          ih hrest]
      · simp [dispatchPass, hd, hp, invokedSubs, staleSubs, hlive, ih hrest]

lemma deref_of_liveSub {V : Type} (env : Env V) (s : Subscription)
    (h : liveSub env s = true) :
    derefHandler env s.handlerRef = some s.handlerRef.hid := by
  cases hd : derefHandler env s.handlerRef with
  | none => rw [liveSub, hd] at h; simp at h
  | some x =>
    have hx := derefHandler_eq_some env s.handlerRef x hd
    subst hx
    rfl

/-- C1: `publish(e)` invokes exactly the subscriptions stored under
`e.name` that are live and whose predicate is absent or passes, each
exactly once with `e` itself as argument, in insertion order (the trace
equals the insertion-ordered filter of that one list, so subscriptions
under other event names are never invoked); when no list exists for
`e.name` the call leaves the registry untouched and invokes nothing. -/
theorem publish_dispatch_correct {V : Type} (env : Env V) (r : Registry) (e : Event V)
    (hn : ∀ h, env.throws h = false) :
    (Registry.publish env r e).1
        = (invokedSubs env e ((mapGet r.handlers e.name).getD [])).map
            (fun s => (s.handlerRef.hid, e))
    ∧ (mapGet r.handlers e.name = none → Registry.publish env r e = ([], r, false)) := by
  constructor
  · cases hget : mapGet r.handlers e.name with
    | none => simp [Registry.publish, hget, invokedSubs]
    | some hs =>
      have hd := dispatchPass_no_throw env e hs
        (fun s _ _ _ => hn s.handlerRef.hid)
      simp [Registry.publish, hget, hd]
  · intro hget
    simp [Registry.publish, hget]

/-- Witness for C1 on the concrete fixtures. -/
theorem publish_dispatch_correct_witness :
    (Registry.publish wEnv wReg wEvent).1
        = (invokedSubs wEnv wEvent ((mapGet wReg.handlers wEvent.name).getD [])).map
            (fun s => (s.handlerRef.hid, wEvent))
    ∧ (mapGet wReg.handlers wEvent.name = none →
        Registry.publish wEnv wReg wEvent = ([], wReg, false)) :=
  publish_dispatch_correct wEnv wReg wEvent (fun _ => rfl)

lemma dispatchPass_append_throw {V : Type} (env : Env V) (e : Event V)
    (pre post : SubList) (s : Subscription)
    (hpre : ∀ t ∈ pre, liveSub env t → predPasses env e t →
        env.throws t.handlerRef.hid = false)
    (hlive : liveSub env s = true) (hp : predPasses env e s = true)
    (ht : env.throws s.handlerRef.hid = true) :
    dispatchPass env e (pre ++ s :: post)
      = ((invokedSubs env e pre).map (fun t => (t.handlerRef.hid, e))
            ++ [(s.handlerRef.hid, e)],
          staleSubs env pre, true) := by
  induction pre with
  | nil =>
    simp [dispatchPass, deref_of_liveSub env s hlive, hp, ht, invokedSubs, staleSubs]
  | cons t pre2 ih =>
    have hpre2 : ∀ u ∈ pre2, liveSub env u → predPasses env e u →
        env.throws u.handlerRef.hid = false := by
      intro u hu; exact hpre u (List.mem_cons_of_mem _ hu)
    have ihx := ih hpre2
    cases hd : derefHandler env t.handlerRef with
    | none =>
      have hlt := liveSub_of_deref_none env t hd
      simp [dispatchPass, hd, invokedSubs, staleSubs, hlt, ihx]
    | some h =>
      have hhid := derefHandler_eq_some env t.handlerRef h hd
      subst hhid
      have hlt := liveSub_of_deref_some env t _ hd
      by_cases hpt : predPasses env e t
      · have hnothrow := hpre t (List.mem_cons_self t pre2) hlt hpt
        simp [dispatchPass, hd, hpt, hnothrow, invokedSubs, staleSubs, hlt, ihx]
      · simp [dispatchPass, hd, hpt, invokedSubs, staleSubs, hlt, ihx]

/-- C8: if one subscribed handler throws during a publish pass, the
exception is not caught by the registry — `publish` aborts with the
failure propagating (`thrown = true`), the registry is left as it was,
the throwing handler was invoked, and no subscriber after it in the
insertion-ordered list is invoked (the trace stops at the thrower). -/
theorem publish_handler_throw_aborts {V : Type} (env : Env V) (r : Registry)
    (e : Event V) (pre post : SubList) (s : Subscription)
    (hget : mapGet r.handlers e.name = some (pre ++ s :: post))
    (hpre : ∀ t ∈ pre, liveSub env t → predPasses env e t →
        env.throws t.handlerRef.hid = false)
    (hlive : liveSub env s = true) (hp : predPasses env e s = true)
    (ht : env.throws s.handlerRef.hid = true) :
    Registry.publish env r e
      = ((invokedSubs env e pre).map (fun t => (t.handlerRef.hid, e))
            ++ [(s.handlerRef.hid, e)], r, true) := by
  have hd := dispatchPass_append_throw env e pre post s hpre hlive hp ht
  simp [Registry.publish, hget, hd]

/-- Witness for C8: handler 1 runs, handler 4 throws, handler 5 is
never invoked. -/
theorem publish_handler_throw_aborts_witness :
    Registry.publish w8Env w8Reg (Event.mk "testEvent" "x")
      = ((invokedSubs w8Env (Event.mk "testEvent" "x")
            [Subscription.mk 0 (HandlerRef.strong 1) none]).map
              (fun t => (t.handlerRef.hid, Event.mk "testEvent" "x"))
            ++ [((Subscription.mk 1 (HandlerRef.strong 4) none).handlerRef.hid,
                  Event.mk "testEvent" "x")], w8Reg, true) :=
  publish_handler_throw_aborts w8Env w8Reg (Event.mk "testEvent" "x")
    [Subscription.mk 0 (HandlerRef.strong 1) none]
    [Subscription.mk 2 (HandlerRef.strong 5) none]
    (Subscription.mk 1 (HandlerRef.strong 4) none)
    (by decide) (by decide) (by decide) (by decide) (by decide)

/-! ### Compaction: `findIndex` + `splice` removes exactly the stale
records -/

lemma jsFindIndex_spec (x : Nat) (l : SubList)
    (hmem : x ∈ l.map Subscription.sid) :
    0 ≤ jsFindIndex (fun s => s.sid == x) l ∧
      jsFindIndex (fun s => s.sid == x) l < (l.length : Int) := by
  induction l with
  | nil => simp at hmem
  | cons s rest ih =>
    by_cases hs : s.sid = x
    · simp [jsFindIndex, hs]
    · have hmem2 : x ∈ rest.map Subscription.sid := by
        simp only [List.map_cons, List.mem_cons] at hmem
        rcases hmem with h1 | h1
        · exact absurd h1.symm hs
        · exact h1
      obtain ⟨h0, hlt⟩ := ih hmem2
      have hneg : ¬ jsFindIndex (fun s => s.sid == x) rest < 0 := by omega
      simp [jsFindIndex, hs, hneg]
      omega

lemma jsSpliceOne_cons_succ (s : Subscription) (rest : SubList) (i : Int)
    (h0 : 0 ≤ i) (hlt : i < (rest.length : Int)) :
    jsSpliceOne (s :: rest) (i + 1) = s :: jsSpliceOne rest i := by
  have hnn : ¬ (i + 1 < 0) := by omega
  have hnn2 : ¬ (i < 0) := by omega
  have htn : (i + 1).toNat = i.toNat + 1 := by omega
  have hm1 : (i.toNat + 1) ⊓ (rest.length + 1) = i.toNat + 1 := by omega
  have hm2 : i.toNat ⊓ rest.length = i.toNat := by omega
  simp [jsSpliceOne, hnn, hnn2, htn, hm1, hm2]

lemma spliceOne_findIndex_eq_erase (x : Nat) (l : SubList)
    (hmem : x ∈ l.map Subscription.sid) :
    jsSpliceOne l (jsFindIndex (fun s => s.sid == x) l) = eraseFirstSid x l := by
  induction l with
  | nil => simp at hmem
  | cons s rest ih =>
    by_cases hs : s.sid = x
    · simp [jsFindIndex, hs, jsSpliceOne, eraseFirstSid]
    · have hmem2 : x ∈ rest.map Subscription.sid := by
        simp only [List.map_cons, List.mem_cons] at hmem
        rcases hmem with h1 | h1
        · exact absurd h1.symm hs
        · exact h1
      obtain ⟨h0, hlt⟩ := jsFindIndex_spec x rest hmem2
      have hneg : ¬ jsFindIndex (fun s => s.sid == x) rest < 0 := by omega
      have hidx : jsFindIndex (fun s => s.sid == x) (s :: rest)
          = jsFindIndex (fun s => s.sid == x) rest + 1 := by
        simp [jsFindIndex, hs, hneg]
      rw [hidx, jsSpliceOne_cons_succ s rest _ h0 hlt, ih hmem2]
      simp [eraseFirstSid, hs]

lemma eraseFirstSid_eq_filter (x : Nat) (l : SubList)
    (hnodup : (l.map Subscription.sid).Nodup) :
    eraseFirstSid x l = l.filter (fun s => s.sid != x) := by
  induction l with
  | nil => rfl
  | cons s rest ih =>
    have hnd : (s.sid :: rest.map Subscription.sid).Nodup := by
      simpa only [List.map_cons] using hnodup
    obtain ⟨hnot, hrest⟩ := List.nodup_cons.mp hnd
    by_cases hs : s.sid = x
    · subst hs
      have hall : ∀ t ∈ rest, (t.sid != s.sid) = true := by
        intro t htmem
        have hne : t.sid ≠ s.sid := by
          intro hteq
          exact hnot (hteq ▸ List.mem_map_of_mem Subscription.sid htmem)
        simpa using hne
      simp [eraseFirstSid, List.filter_cons, List.filter_eq_self.mpr hall]
    · have hbne : (s.sid != x) = true := by simpa using hs
      simp [eraseFirstSid, hs, List.filter_cons, hbne, ih hrest]

lemma compact_removes : ∀ (rec hs : SubList),
    (hs.map Subscription.sid).Nodup →
    (∀ r ∈ rec, r.sid ∈ hs.map Subscription.sid) →
    (rec.map Subscription.sid).Nodup →
    compact rec hs
      = hs.filter (fun s => !(decide (s.sid ∈ rec.map Subscription.sid)))
  | [], hs, _, _, _ => by simp [compact]
  | r :: rec2, hs, hnodup, hsub, hrecnodup => by
    have hnd : (r.sid :: rec2.map Subscription.sid).Nodup := by
      simpa only [List.map_cons] using hrecnodup
    obtain ⟨hnothead, hrec2⟩ := List.nodup_cons.mp hnd
    have hmem : r.sid ∈ hs.map Subscription.sid := hsub r (List.mem_cons_self _ _)
    have hstep : jsSpliceOne hs (jsFindIndex (fun s => s.sid == r.sid) hs)
        = hs.filter (fun s => s.sid != r.sid) := by
      rw [spliceOne_findIndex_eq_erase r.sid hs hmem,
        eraseFirstSid_eq_filter r.sid hs hnodup]
    have hnodup2 : ((hs.filter (fun s => s.sid != r.sid)).map Subscription.sid).Nodup :=
      List.Nodup.sublist ((List.filter_sublist hs).map Subscription.sid) hnodup
    have hsub2 : ∀ u ∈ rec2,
        u.sid ∈ (hs.filter (fun s => s.sid != r.sid)).map Subscription.sid := by
      intro u hu
      have h1 : u.sid ∈ hs.map Subscription.sid := hsub u (List.mem_cons_of_mem _ hu)
      have h2 : u.sid ≠ r.sid := by
        intro he
        exact hnothead (he ▸ List.mem_map_of_mem Subscription.sid hu)
      obtain ⟨t, htmem, hts⟩ := List.mem_map.mp h1
      refine List.mem_map.mpr ⟨t, List.mem_filter.mpr ⟨htmem, ?_⟩, hts⟩
      simp [hts, h2]
    have hcomp : compact (r :: rec2) hs
        = compact rec2 (hs.filter (fun s => s.sid != r.sid)) := by
      simp [compact, hstep]
    rw [hcomp, compact_removes rec2 _ hnodup2 hsub2 hrec2, List.filter_filter]
    apply List.filter_congr
    intro t htmem
    by_cases ha : t.sid = r.sid <;> by_cases hb : t.sid ∈ rec2.map Subscription.sid <;>
      simp [ha, hb]

lemma compact_stale_eq_filter_live {V : Type} (env : Env V) (hs : SubList)
    (hnodup : (hs.map Subscription.sid).Nodup) :
    compact (staleSubs env hs) hs = hs.filter (fun s => liveSub env s) := by
  have hsub : ∀ u ∈ staleSubs env hs, u.sid ∈ hs.map Subscription.sid := by
    intro u hu
    exact List.mem_map_of_mem Subscription.sid (List.mem_filter.mp hu).1
  have hrecnodup : ((staleSubs env hs).map Subscription.sid).Nodup :=
    List.Nodup.sublist ((List.filter_sublist hs).map Subscription.sid) hnodup
  rw [compact_removes (staleSubs env hs) hs hnodup hsub hrecnodup]
  apply List.filter_congr
  intro t htmem
  by_cases hl : liveSub env t
  · have hnm : ¬ (t.sid ∈ (staleSubs env hs).map Subscription.sid) := by
      intro hc
      obtain ⟨u, humem, hus⟩ := List.mem_map.mp hc
      obtain ⟨humem2, hustale⟩ := List.mem_filter.mp humem
      have huts : u = t := List.inj_on_of_nodup_map hnodup humem2 htmem hus
      rw [huts] at hustale
      simp [hl] at hustale
    simp [hl, hnm]
  · have hmm : t.sid ∈ (staleSubs env hs).map Subscription.sid := by
      refine List.mem_map_of_mem Subscription.sid (List.mem_filter.mpr ⟨htmem, ?_⟩)
      simp [hl]
    simp [hl, hmm]

lemma length_filter_add_length_not (p : Subscription → Bool) (l : SubList) :
    (l.filter p).length + (l.filter (fun s => !p s)).length = l.length := by
  induction l with
  | nil => rfl
  | cons s rest ih =>
    by_cases h : p s <;> simp [List.filter_cons, h] <;> omega

/-- C3: a publish pass over a list containing stale weak subscriptions
invokes none of them, and afterwards — in a single compaction step after
the full pass, removing records by their identity — the list stored for
the event name is exactly the live subscriptions, so its length drops by
exactly the number of stale ones. The `Nodup` hypothesis expresses that
distinct subscription records are distinct objects. -/
theorem publish_prunes_stale {V : Type} (env : Env V) (r : Registry) (e : Event V)
    (hs : SubList)
    (hget : mapGet r.handlers e.name = some hs)
    (hnodup : (hs.map Subscription.sid).Nodup)
    (hn : ∀ h, env.throws h = false) :
    mapGet (Registry.publish env r e).2.1.handlers e.name
        = some (hs.filter (fun s => liveSub env s))
    ∧ (hs.filter (fun s => liveSub env s)).length + (staleSubs env hs).length
        = hs.length
    ∧ (Registry.publish env r e).1
        = (invokedSubs env e hs).map (fun s => (s.handlerRef.hid, e)) := by
  have hd := dispatchPass_no_throw env e hs (fun s _ _ _ => hn s.handlerRef.hid)
  have hcomp := compact_stale_eq_filter_live env hs hnodup
  have hif : (if (staleSubs env hs).length ≠ 0
        then compact (staleSubs env hs) hs else hs)
      = compact (staleSubs env hs) hs := by
    by_cases hz : (staleSubs env hs).length ≠ 0
    · simp [hz]
    · have hnil : staleSubs env hs = [] := List.length_eq_zero.mp (by omega)
      simp [hz, hnil, compact]
  refine ⟨?_, ?_, ?_⟩
  · simp only [Registry.publish, hget, hd]
    rw [if_neg (by simp), hif, hcomp, mapGet_mapSet_self]
  · simpa [staleSubs] using
      length_filter_add_length_not (fun s => liveSub env s) hs
  · simp [Registry.publish, hget, hd]

/-- Witness for C3: the stale weak subscription (record 1) is pruned and
exactly the three live ones remain. -/
theorem publish_prunes_stale_witness :
    mapGet (Registry.publish wEnv wReg wEvent).2.1.handlers wEvent.name
        = some (wTestSubs.filter (fun s => liveSub wEnv s))
    ∧ (wTestSubs.filter (fun s => liveSub wEnv s)).length
        + (staleSubs wEnv wTestSubs).length = wTestSubs.length
    ∧ (Registry.publish wEnv wReg wEvent).1
        = (invokedSubs wEnv wEvent wTestSubs).map
            (fun s => (s.handlerRef.hid, wEvent)) :=
  publish_prunes_stale wEnv wReg wEvent wTestSubs (by decide) (by decide)
    (fun _ => rfl)

/-! ### Subscription storage (`on`) -/

/-- C2 (code bug): with `options` absent, `on` stores the handler as a
direct strong reference — `options?.weak` is `undefined`, hence falsy, so
`weak ? new WeakRef(handler) : handler` takes the strong branch — even
though the spec and the source's own doc comment ("this option is true by
default") state that weak retention is the default; only an explicit
`weak: true` produces a `WeakRef`. -/
theorem on_default_retention_is_strong :
    ((Registry.mk 0 "testContext" [] 0).on
          (Sum.inl "testEvent" : String ⊕ BeanLinkEventCreator Unit) 7 none).handlers
        = [("testEvent", [⟨0, HandlerRef.strong 7, none⟩])]
    ∧ ((Registry.mk 0 "testContext" [] 0).on
          (Sum.inl "testEvent" : String ⊕ BeanLinkEventCreator Unit) 7
          (some ⟨some true, none⟩)).handlers
        = [("testEvent", [⟨0, HandlerRef.weak 7, none⟩])] :=
  ⟨rfl, rfl⟩

/-! ### Scope resolution -/

lemma applyCb_rid (env : CbEnv) (cb : Nat) (r : Registry) :
    (applyCb env cb r).rid = r.rid := rfl

lemma applyCb_name (env : CbEnv) (cb : Nat) (r : Registry) :
    (applyCb env cb r).name = r.name := rfl

lemma initFeatures_foldl (env : CbEnv) (cbs : List Nat) :
    ∀ (bl : Registry) (tr : List (Nat × Nat)),
    (cbs.foldl (fun acc cb => (applyCb env cb acc.1, acc.2 ++ [(cb, acc.1.rid)]))
        (bl, tr)).2
      = tr ++ cbs.map (fun cb => (cb, bl.rid))
    ∧ (cbs.foldl (fun acc cb => (applyCb env cb acc.1, acc.2 ++ [(cb, acc.1.rid)]))
        (bl, tr)).1.rid = bl.rid
    ∧ (cbs.foldl (fun acc cb => (applyCb env cb acc.1, acc.2 ++ [(cb, acc.1.rid)]))
        (bl, tr)).1.name = bl.name := by
  induction cbs with
  | nil => intro bl tr; simp
  | cons c rest ih =>
    intro bl tr
    obtain ⟨h1, h2, h3⟩ := ih (applyCb env c bl) (tr ++ [(c, bl.rid)])
    refine ⟨?_, ?_, ?_⟩
    · rw [List.foldl_cons, h1, applyCb_rid]
      simp
    · rw [List.foldl_cons, h2, applyCb_rid]
    · rw [List.foldl_cons, h3, applyCb_name]

lemma initialiseFeatures_spec (env : CbEnv) (fm : FeatureMap) (context : String)
    (bl : Registry) :
    (initialiseFeatures env fm context bl).2
      = ((mapGet fm context).getD []).map (fun cb => (cb, bl.rid))
    ∧ (initialiseFeatures env fm context bl).1.rid = bl.rid
    ∧ (initialiseFeatures env fm context bl).1.name = bl.name := by
  cases hget : mapGet fm context with
  | none => simp [initialiseFeatures, hget]
  | some cbs =>
    obtain ⟨h1, h2, h3⟩ := initFeatures_foldl env cbs bl []
    simp [initialiseFeatures, hget, h1, h2, h3]

/-- The reuse branch of `getInstance`: an active instance exists and the
identifier is absent or equal to its name, so the instance is returned as
both members, nothing is written, and no feature callback runs. -/
lemma getInstance_reuse_eq (env : CbEnv) (w : World) (bl : Registry)
    (contextId : Option String)
    (hget : ctxGet w.context "beanLink" = some bl)
    (hid : contextId = none ∨ contextId = some bl.name) :
    getInstance env w contextId = Except.ok (some bl, some bl, w, []) := by
  rcases hid with h | h
  · subst h
    simp [getInstance, hget, jsTruthyOptStr]
  · subst h
    simp [getInstance, hget, jsTruthyOptStr, jsTruthyString]

/-- The creation branch of `getInstance`: a truthy identifier that does
not match the active name (or no active instance) constructs a fresh
registry identified by `w.nextRid`, runs the feature callbacks on it,
then writes it under "beanLink" and the previously active value under
"parentBeanLink". -/
lemma getInstance_create (env : CbEnv) (w : World) (cid : String)
    (hcid : cid ≠ "")
    (hnew : ∀ bl, ctxGet w.context "beanLink" = some bl → cid ≠ bl.name) :
    getInstance env w (some cid)
      = Except.ok
          (some (initialiseFeatures env w.featureMap cid ⟨w.nextRid, cid, [], 0⟩).1,
            ctxGet w.context "beanLink",
            ⟨ctxSet (ctxSet w.context "beanLink"
                (some (initialiseFeatures env w.featureMap cid ⟨w.nextRid, cid, [], 0⟩).1))
              "parentBeanLink" (ctxGet w.context "beanLink"),
              w.featureMap, w.nextRid + 1⟩,
            (initialiseFeatures env w.featureMap cid ⟨w.nextRid, cid, [], 0⟩).2) := by
  cases hbl : ctxGet w.context "beanLink" with
  | none => simp [getInstance, hbl, jsTruthyOptStr, jsTruthyString, hcid]
  | some bl =>
    have hne := hnew bl hbl
    simp [getInstance, hbl, jsTruthyOptStr, jsTruthyString, hcid, hne]

/-- C4: with an instance already active, `getInstance` called with that
instance's own name, or with no identifier, returns the same instance as
both `beanLink` and `parentBeanLink` and performs no context write (the
world is returned unchanged, so a second identical call returns the
identical instance again). -/
theorem getInstance_reuse_idempotent (env : CbEnv) (w : World) (bl : Registry)
    (contextId : Option String)
    (hget : ctxGet w.context "beanLink" = some bl)
    (hid : contextId = none ∨ contextId = some bl.name) :
    getInstance env w contextId = Except.ok (some bl, some bl, w, []) :=
  getInstance_reuse_eq env w bl contextId hget hid

/-- Witness for C4 on the concrete scope fixtures. -/
theorem getInstance_reuse_idempotent_witness :
    getInstance wCbEnv wScopeWorld (some "A")
      = Except.ok (some blA, some blA, wScopeWorld, []) :=
  getInstance_reuse_idempotent wCbEnv wScopeWorld blA (some "A") (by decide)
    (Or.inr (by decide))

/-- C5: with scope "A" active, resolving a distinctly named scope yields
a fresh registry carrying the requested name, returned with parent equal
to A's registry; the fresh registry is written under "beanLink" and the
old one under "parentBeanLink" — the parent having been read back from
the context after construction but before either write, so it is still
the previously active registry. -/
theorem getInstance_parent_linkage (env : CbEnv) (w : World) (a : Registry)
    (cid : String)
    (hget : ctxGet w.context "beanLink" = some a)
    (hcid : cid ≠ "") (hne : cid ≠ a.name) :
    ∃ fresh w2 trace,
      getInstance env w (some cid) = Except.ok (some fresh, some a, w2, trace)
      ∧ fresh.name = cid ∧ fresh.rid = w.nextRid
      ∧ ctxGet w2.context "beanLink" = some fresh
      ∧ ctxGet w2.context "parentBeanLink" = some a := by
  have hnew : ∀ bl, ctxGet w.context "beanLink" = some bl → cid ≠ bl.name := by
    intro bl hbl
    rw [hget] at hbl
    injection hbl with hbl2
    rw [← hbl2]
    exact hne
  have hcr := getInstance_create env w cid hcid hnew
  rw [hget] at hcr
  obtain ⟨htr, hrid, hname⟩ :=
    initialiseFeatures_spec env w.featureMap cid ⟨w.nextRid, cid, [], 0⟩
  refine ⟨_, _, _, hcr, hname, hrid, ?_, ?_⟩
  · rw [ctxGet_ctxSet_ne _ _ _ _ (by decide), ctxGet_ctxSet_self]
  · rw [ctxGet_ctxSet_self]

/-- Witness for C5: resolving "B" while "A" is active. -/
theorem getInstance_parent_linkage_witness :
    ∃ fresh w2 trace,
      getInstance wCbEnv wScopeWorld (some "B")
          = Except.ok (some fresh, some blA, w2, trace)
      ∧ fresh.name = "B" ∧ fresh.rid = wScopeWorld.nextRid
      ∧ ctxGet w2.context "beanLink" = some fresh
      ∧ ctxGet w2.context "parentBeanLink" = some blA :=
  getInstance_parent_linkage wCbEnv wScopeWorld blA "B" (by decide) (by decide)
    (by decide)

/-- C6: with no identifier and no active instance in the context,
`getInstance` throws "no BeanLink instance in Svelte context found"
immediately; the `setContext` writes come after the `throw`, so no
context value is written and no registry is fabricated. -/
theorem getInstance_no_active_scope (env : CbEnv) (w : World)
    (hget : ctxGet w.context "beanLink" = none) :
    getInstance env w none
      = Except.error "no BeanLink instance in Svelte context found" := by
  simp [getInstance, hget, jsTruthyOptStr]

/-- Witness for C6 on the empty-context world. -/
theorem getInstance_no_active_scope_witness :
    getInstance wCbEnv wEmptyWorld none
      = Except.error "no BeanLink instance in Svelte context found" :=
  getInstance_no_active_scope wCbEnv wEmptyWorld rfl

/-- C9: `registerFeature` appends the callback to the position's list;
when `getInstance` creates a fresh registry for position `cid`, every
callback registered under `cid` is invoked exactly once against that
fresh registry (the trace pairs each callback, in registration order,
with the fresh `rid`), before the registry is stored into the context
(the stored value is the post-callback registry) and before the caller
regains control (the returned value is that same registry); the reuse
branch runs no callbacks (empty trace). -/
theorem feature_auto_attach (env : CbEnv) (w : World) (cid : String)
    (hcid : cid ≠ "")
    (hnew : ∀ bl, ctxGet w.context "beanLink" = some bl → cid ≠ bl.name) :
    (∀ (fm : FeatureMap) (p : String) (cb : Nat),
        mapGet (registerFeature fm p cb) p = some ((mapGet fm p).getD [] ++ [cb]))
    ∧ (∃ fresh w2,
        getInstance env w (some cid)
          = Except.ok (some fresh, ctxGet w.context "beanLink", w2,
              ((mapGet w.featureMap cid).getD []).map (fun cb => (cb, w.nextRid)))
        ∧ fresh = (initialiseFeatures env w.featureMap cid ⟨w.nextRid, cid, [], 0⟩).1
        ∧ fresh.rid = w.nextRid
        ∧ ctxGet w2.context "beanLink" = some fresh)
    ∧ (∀ bl, ctxGet w.context "beanLink" = some bl →
        getInstance env w (some bl.name) = Except.ok (some bl, some bl, w, [])) := by
  refine ⟨?_, ?_, ?_⟩
  · intro fm p cb
    exact mapGet_mapSet_self fm p _
  · obtain ⟨htr, hrid, _⟩ :=
      initialiseFeatures_spec env w.featureMap cid ⟨w.nextRid, cid, [], 0⟩
    have hcr := getInstance_create env w cid hcid hnew
    rw [htr] at hcr
    refine ⟨_, _, hcr, rfl, hrid, ?_⟩
    rw [ctxGet_ctxSet_ne _ _ _ _ (by decide), ctxGet_ctxSet_self]
  · intro bl hbl
    exact getInstance_reuse_eq env w bl (some bl.name) hbl (Or.inr rfl)

/-- Witness for C9: two callbacks registered for "Tile", resolved in a
world with no active instance. -/
theorem feature_auto_attach_witness :
    (∀ (fm : FeatureMap) (p : String) (cb : Nat),
        mapGet (registerFeature fm p cb) p = some ((mapGet fm p).getD [] ++ [cb]))
    ∧ (∃ fresh w2,
        getInstance wCbEnv wEmptyWorld (some "Tile")
          = Except.ok (some fresh, ctxGet wEmptyWorld.context "beanLink", w2,
              ((mapGet wEmptyWorld.featureMap "Tile").getD []).map
                (fun cb => (cb, wEmptyWorld.nextRid)))
        ∧ fresh = (initialiseFeatures wCbEnv wEmptyWorld.featureMap "Tile"
              ⟨wEmptyWorld.nextRid, "Tile", [], 0⟩).1
        ∧ fresh.rid = wEmptyWorld.nextRid
        ∧ ctxGet w2.context "beanLink" = some fresh)
    ∧ (∀ bl, ctxGet wEmptyWorld.context "beanLink" = some bl →
        getInstance wCbEnv wEmptyWorld (some bl.name)
          = Except.ok (some bl, some bl, wEmptyWorld, [])) :=
  feature_auto_attach wCbEnv wEmptyWorld "Tile" (by decide)
    (by intro bl h; simp [wEmptyWorld, ctxGet, mapGet] at h)

/-! ### Event catalog -/

lemma mapGet_mem {α : Type} : ∀ (m : List (String × α)) (k : String) (v : α),
    mapGet m k = some v → (k, v) ∈ m
  | [], k, v, h => by simp [mapGet] at h
  | (a, b) :: rest, k, v, h => by
    by_cases hp : a = k
    · rw [mapGet, if_pos hp] at h
      injection h with h2
      rw [← hp, h2]
      exact List.mem_cons_self _ _
    · rw [mapGet, if_neg hp] at h
      exact List.mem_cons_of_mem _ (mapGet_mem rest k v h)

lemma mapSet_inv : ∀ (m : Catalog) (k : String),
    (∀ p ∈ m, p.2 = p.1) → ∀ p ∈ mapSet m k k, p.2 = p.1
  | [], k, _, p, hp => by
    simp [mapSet] at hp
    rw [hp]
  | (a, b) :: rest, k, hinv, p, hp => by
    by_cases ha : a = k
    · rw [mapSet, if_pos ha] at hp
      rcases List.mem_cons.mp hp with h | h
      · rw [h]
      · exact hinv p (List.mem_cons_of_mem _ h)
    · rw [mapSet, if_neg ha] at hp
      rcases List.mem_cons.mp hp with h | h
      · rw [h]
        exact hinv (a, b) (List.mem_cons_self _ _)
      · exact mapSet_inv rest k (fun q hq => hinv q (List.mem_cons_of_mem _ hq)) p h

/-- On a catalog whose every stored value equals its key — the invariant
`eventNames.set(name, name)` maintains — declaring the empty name always
succeeds, because the stored value `""` is falsy. -/
lemma createEvent_empty_ok (cat : Catalog) (hinv : ∀ p ∈ cat, p.2 = p.1) :
    createEvent Unit cat ""
      = (Except.ok ⟨"", fun value => ⟨"", value⟩⟩, mapSet cat "" "") := by
  have hhit0 : catalogHit cat "" = false := by
    cases hg : mapGet cat "" with
    | none => simp [catalogHit, hg]
    | some v =>
      have hv : v = "" := by
        simpa using hinv ("", v) (mapGet_mem cat "" v hg)
      simp [catalogHit, hg, hv, jsTruthyString]
  simp [createEvent, hhit0]

/-- C7: declaring a non-empty name already recorded in the catalog
throws `Error('Event with name "<name>" already exists.')` and leaves
the catalog's bookkeeping unchanged (the `set` is unreached); a first
declaration of a name records it and returns a creator whose `event`
function is the pure constructor `value => ({name, value})`. -/
theorem createEvent_duplicate_rejected (V : Type) (cat : Catalog) (name : String)
    (hrec : mapGet cat name = some name) (hne : name ≠ "") :
    createEvent V cat name
        = (Except.error ("Event with name \"" ++ name ++ "\" already exists."), cat)
    ∧ (∀ cat2 : Catalog, mapGet cat2 name = none →
        createEvent V cat2 name
            = (Except.ok ⟨name, fun value => ⟨name, value⟩⟩, mapSet cat2 name name)
          ∧ mapGet (mapSet cat2 name name) name = some name) := by
  constructor
  · have hhit : catalogHit cat name = true := by
      simp [catalogHit, hrec, jsTruthyString, hne]
    simp [createEvent, hhit]
  · intro cat2 h2
    have hhit : catalogHit cat2 name = false := by simp [catalogHit, h2]
    exact ⟨by simp [createEvent, hhit], mapGet_mapSet_self cat2 name name⟩

/-- Witness for C7: "counterparty" is already declared. -/
theorem createEvent_duplicate_rejected_witness :
    createEvent Unit wCat "counterparty"
        = (Except.error "Event with name \"counterparty\" already exists.", wCat)
    ∧ (∀ cat2 : Catalog, mapGet cat2 "counterparty" = none →
        createEvent Unit cat2 "counterparty"
            = (Except.ok ⟨"counterparty", fun value => ⟨"counterparty", value⟩⟩,
                mapSet cat2 "counterparty" "counterparty")
          ∧ mapGet (mapSet cat2 "counterparty" "counterparty") "counterparty"
              = some "counterparty") :=
  createEvent_duplicate_rejected Unit wCat "counterparty" (by decide) (by decide)

/-- C10: `createEvent` rejects exactly when the stored value for the
name is truthy; since the catalog stores each name as its own value, the
stored value for `""` is the falsy `""`, so every declaration of the
empty name — including repeated ones — succeeds silently (the source has
no warning path), and the spec's non-empty-name precondition is never
checked. -/
theorem createEvent_empty_name_unchecked (cat : Catalog)
    (hinv : ∀ p ∈ cat, p.2 = p.1) :
    (∀ nm : String,
        (createEvent Unit cat nm).1
            = Except.error ("Event with name \"" ++ nm ++ "\" already exists.")
          ↔ ∃ v, mapGet cat nm = some v ∧ jsTruthyString v = true)
    ∧ createEvent Unit cat ""
        = (Except.ok ⟨"", fun value => ⟨"", value⟩⟩, mapSet cat "" "")
    ∧ createEvent Unit (createEvent Unit cat "").2 ""
        = (Except.ok ⟨"", fun value => ⟨"", value⟩⟩,
            mapSet (createEvent Unit cat "").2 "" "") := by
  have hok := createEvent_empty_ok cat hinv
  refine ⟨?_, hok, ?_⟩
  · intro nm
    by_cases hhit : catalogHit cat nm
    · constructor
      · intro _
        cases hg : mapGet cat nm with
        | none => simp [catalogHit, hg] at hhit
        | some v =>
          refine ⟨v, rfl, ?_⟩
          simpa [catalogHit, hg] using hhit
      · intro _
        simp [createEvent, hhit]
    · constructor
      · intro he
        simp [createEvent, hhit] at he
      · rintro ⟨v, hg, htr⟩
        rw [catalogHit, hg] at hhit
        exact absurd htr hhit
  · have hsnd : (createEvent Unit cat "").2 = mapSet cat "" "" := by rw [hok]
    rw [hsnd]
    exact createEvent_empty_ok (mapSet cat "" "") (mapSet_inv cat "" hinv)

/-- Witness for C10 on the concrete catalog. -/
theorem createEvent_empty_name_unchecked_witness :
    (∀ nm : String,
        (createEvent Unit wCat nm).1
            = Except.error ("Event with name \"" ++ nm ++ "\" already exists.")
          ↔ ∃ v, mapGet wCat nm = some v ∧ jsTruthyString v = true)
    ∧ createEvent Unit wCat ""
        = (Except.ok ⟨"", fun value => ⟨"", value⟩⟩, mapSet wCat "" "")
    ∧ createEvent Unit (createEvent Unit wCat "").2 ""
        = (Except.ok ⟨"", fun value => ⟨"", value⟩⟩,
            mapSet (createEvent Unit wCat "").2 "" "") :=
  createEvent_empty_name_unchecked wCat (by decide)

end BeanLinkSpec
